import Mathlib

/-!
Verification development for the `api-gamification` newsletter service.

The embedding models `DatabaseService` (`src/services/db.service.ts`):
calendar dates are integers (days since an epoch chosen so that a day `d`
with `d % 7 = 0` is a Sunday, matching JavaScript `Date.getDay() === 0` and
SQLite `strftime` weekday `0`).  SQLite `FLOAT` arithmetic is modelled over
`ℚ`; the values involved (small integer ratios rounded to two decimals) are
exact in both.  Users are keyed by their unique `email`.
-/

namespace ApiGamification

/-- A day `d` is a Sunday iff `d % 7 = 0` (epoch convention). -/
def isSunday (d : Int) : Bool := d % 7 == 0

/-- Character class `[a-zA-Z0-9._%+-]` of the local part of the e-mail
regex in `DatabaseService.isValidEmail`. -/
def isLocalChar (c : Char) : Bool :=
  c.isAlpha || c.isDigit || c == '.' || c == '_' || c == '%' || c == '+' || c == '-'

/-- Character class `[a-zA-Z0-9.-]` of the domain part of the e-mail regex. -/
def isDomainChar (c : Char) : Bool :=
  c.isAlpha || c.isDigit || c == '.' || c == '-'

/-- Matching of `[a-zA-Z0-9.-]+\.[a-zA-Z]\x7b2,\x7d$` against the part of the
address after the `@`: some split point yields a nonempty domain run, a dot,
and a trailing run of at least two letters. -/
def domainMatch (l : List Char) : Bool :=
  (List.range l.length).any fun i =>
    decide (0 < i) && (l.take i).all isDomainChar &&
      (match l.drop i with
       | '.' :: t => decide (2 ≤ t.length) && t.all Char.isAlpha
       | _ => false)

/-- `DatabaseService.isValidEmail`: the anchored regex
`^[a-zA-Z0-9._%+-]+@[a-zA-Z0-9.-]+\.[a-zA-Z]\x7b2,\x7d$`.  Neither character
class contains `@`, so a match must split the string at its first `@`. -/
def isValidEmail (s : String) : Bool :=
  let loc := s.data.takeWhile (fun c => c != '@')
  match s.data.dropWhile (fun c => c != '@') with
  | '@' :: r => decide (0 < loc.length) && loc.all isLocalChar && domainMatch r
  | _ => false

/-- Payload of the read webhook (`WebhookData` in `types.ts`). -/
structure WebhookData where
  email : String
  post_id : String
  utm_source : Option String := none
  utm_medium : Option String := none
  utm_campaign : Option String := none
  utm_channel : Option String := none
deriving Repr, DecidableEq

/-- A row of the `users` table (the columns the core logic touches). -/
structure UserRec where
  email : String
  current_streak : Nat
  highest_streak : Nat
  last_read_date : Option Int := none
  created_at : Int := 0
deriving Repr, DecidableEq

/-- A row of the `reading_stats` table. -/
structure ReadEvent where
  user : String
  post_id : String
  read_date : Int
  utm_source : Option String := none
  utm_medium : Option String := none
  utm_campaign : Option String := none
  utm_channel : Option String := none
deriving Repr, DecidableEq

/-- The persistent state the read recorder manipulates. -/
structure DBState where
  users : List UserRec
  reads : List ReadEvent
deriving Repr, DecidableEq

/-- Outcome of `recordRead`: normal return, or a thrown `ValidationError`. -/
inductive RecordResult where
  | ok : RecordResult
  | validationError (msg : String) : RecordResult
deriving Repr, DecidableEq

/-- Sort a list of dates in descending order (SQL `ORDER BY read_date DESC`). -/
def sortDesc (l : List Int) : List Int :=
  l.insertionSort fun a b => b ≤ a

/-- `SELECT DISTINCT date(read_date) ... WHERE user_id = ? ORDER BY read_date
DESC`: the distinct read dates of one user, most recent first. -/
def distinctDatesDesc (reads : List ReadEvent) (email : String) : List Int :=
  sortDesc (((reads.filter (fun r => r.user == email)).map (fun r => r.read_date)).dedup)

/-- Body of the streak `for` loop of `recordRead` past the first entry:
`prev` is the more recent date already counted; the next date continues the
streak iff the gap is exactly one day, or exactly two days with the earlier
date itself a Sunday (`currentDate.getDay() === 0`). -/
def streakGo (prev : Int) : List Int → Nat
  | [] => 0
  | cur :: rest =>
    if prev - cur == 1 || (prev - cur == 2 && isSunday cur) then
      1 + streakGo cur rest
    else 0

/-- The streak computed inside `recordRead` from the distinct read dates in
descending order: `0` on an empty history, otherwise `1` for the most recent
date plus the consecutive run behind it. -/
def streakLoop : List Int → Nat
  | [] => 0
  | d :: rest => 1 + streakGo d rest

/-- Look a user up by e-mail (`SELECT * FROM users WHERE email = ?`). -/
def findUser (st : DBState) (email : String) : Option UserRec :=
  st.users.find? (fun u => u.email == email)

/-- `getOrCreateUser` (validation aside): insert a fresh row with
`current_streak = 1, highest_streak = 1` when the e-mail is unknown. -/
def getOrCreateUser (st : DBState) (email : String) : DBState :=
  if st.users.any (fun u => u.email == email) then st
  else { st with users := st.users ++ [{ email := email, current_streak := 1, highest_streak := 1 }] }

/-- `hasReadPost`: does a `reading_stats` row for this user and post exist? -/
def hasReadPost (st : DBState) (email post_id : String) : Bool :=
  st.reads.any (fun r => r.user == email && r.post_id == post_id)

/-- The `UPDATE users SET current_streak = ?, highest_streak = CASE WHEN ?
> highest_streak THEN ? ELSE highest_streak END, last_read_date = ...`
statement at the end of `recordRead`, applied to one row. -/
def applyStreakUpdate (email : String) (s : Nat) (today : Int) (u : UserRec) : UserRec :=
  if u.email == email then
    { u with current_streak := s, highest_streak := max u.highest_streak s,
             last_read_date := some today }
  else u

/-- `DatabaseService.recordRead`, with `today` the current date in UTC-3
(`new Date()` shifted by `-3` hours; also the date part of
`datetime('now', '-3 hours')`).  In order: e-mail validation, the Sunday
rejection, user upsert, the duplicate-read no-op, the insert, the streak
recomputation over the user's distinct read dates, and the
`current_streak` / `highest_streak` / `last_read_date` update. -/
def recordRead (st : DBState) (data : WebhookData) (today : Int) : RecordResult × DBState :=
  if !isValidEmail data.email then
    (.validationError "Invalid email address", st)
  else if isSunday today then
    (.validationError "Reading is not allowed on Sundays", st)
  else
    let st1 := getOrCreateUser st data.email
    if hasReadPost st1 data.email data.post_id then
      (.ok, st1)
    else
      let ev : ReadEvent :=
        { user := data.email, post_id := data.post_id, read_date := today,
          utm_source := data.utm_source, utm_medium := data.utm_medium,
          utm_campaign := data.utm_campaign, utm_channel := data.utm_channel }
      let st2 := { st1 with reads := st1.reads ++ [ev] }
      let s := streakLoop (distinctDatesDesc st2.reads data.email)
      let st3 := { st2 with users := st2.users.map (applyStreakUpdate data.email s today) }
      (.ok, st3)

/-- The date range produced by a recursive CTE seeded at `a` that adds
successor days while the current day is `< b`: the seed row is always
present, so the range is `insert a (Icc a b)` (just `{a}` when `b < a`). -/
def datesFrom (a b : Int) : Finset Int := insert a (Finset.Icc a b)

/-- The date window scanned by the streak CTE of `getUserStats`: seeded at
`today`, stepping back one day while the current day is `≥ today - 90`, so
the produced rows are exactly `today - 91, …, today`. -/
def streakWindow (today : Int) : Finset Int := Finset.Icc (today - 91) today

/-- The `consecutive_reads` row filter of the streak query: a window day is
kept if the user read on it, or if it is a Sunday and some strictly later
window day has a read (Sundays are carried along as transparent). -/
def sqlSelected (win reads : Finset Int) (d : Int) : Prop :=
  d ∈ reads ∨ (isSunday d = true ∧ ∃ d2 ∈ win, d < d2 ∧ d2 ∈ reads)

instance (win reads : Finset Int) (d : Int) : Decidable (sqlSelected win reads d) := by
  unfold sqlSelected; infer_instance

/-- `gaps_before_today` of the streak query: the number of window days
strictly between `d` and `today` with no read that are not Sundays. -/
def sqlGaps (win reads : Finset Int) (today d : Int) : Nat :=
  (win.filter fun d2 => d < d2 ∧ d2 < today ∧ d2 ∉ reads ∧ isSunday d2 = false).card

/-- The `current_streak` of the recursive SQL query, over an arbitrary date
window `win` (all of whose days are `≤ today`): the number of selected
window days with no gap between them and today. -/
def streakOver (win reads : Finset Int) (today : Int) : Nat :=
  (win.filter fun d => sqlSelected win reads d ∧ sqlGaps win reads today d = 0).card

/-- `current_streak` as computed by `getUserStats` (the `streak_count` CTE):
the generic window query over the 92-day window ending today, against the
user's distinct read dates. -/
def sqlCurrentStreak (reads : Finset Int) (today : Int) : Nat :=
  streakOver (streakWindow today) reads today

/-- The `highest_streak` column of `getUserStats`' final `SELECT`:
`CASE WHEN current_streak > highest_streak THEN current_streak ELSE
highest_streak END`. -/
def reportedHighest (stored cur : Nat) : Nat :=
  if cur > stored then cur else stored

/-- `total_possible_newsletters` of `getUserStats`: the non-Sunday days
enumerated from the user's `created_at` through today. -/
def possibleNewsletters (createdAt today : Int) : Nat :=
  ((datesFrom createdAt today).filter fun d => isSunday d = false).card

/-- SQLite `ROUND(x, 2)` on the exact rationals involved: round half away
from zero agrees with `round` (half up) on the nonnegative values here. -/
def roundTo2 (q : ℚ) : ℚ := (round (q * 100) : ℚ) / 100

/-- The `opening_rate` column of `getUserStats`:
`MIN(ROUND(total_reads / total_possible * 100, 2), 100)` when the
denominator is positive, else `100`. -/
def userStatsOpeningRate (totalReads possible : Nat) : ℚ :=
  if 0 < possible then min (roundTo2 ((totalReads : ℚ) / (possible : ℚ) * 100)) 100
  else 100

/-- The `opening_rate` column of `getTopReaders` (and `getAdminStats`):
`ROUND(total_reads / total_possible * 100, 2)` when the denominator is
positive, else `0` — with no upper clamp. -/
def topReadersOpeningRate (totalReads possible : Nat) : ℚ :=
  if 0 < possible then roundTo2 ((totalReads : ℚ) / (possible : ℚ) * 100)
  else 0

/-- The full opening-rate pipeline of `getUserStats` for one user:
`total_reads` is `COUNT(DISTINCT r.id)`, i.e. the number of read-event rows
of the user (not distinct days). -/
def getUserStatsOpeningRate (reads : List ReadEvent) (email : String)
    (createdAt today : Int) : ℚ :=
  userStatsOpeningRate (reads.filter fun r => r.user == email).length
    (possibleNewsletters createdAt today)

/-- The admin e-mail excluded from every aggregate query. -/
def adminEmail : String := "admin@example.com"

/-- `newsletter_days` of the aggregate queries: distinct non-Sunday read
dates of *any* user (the admin included) inside `[startD, endD]`. -/
def newsletterDays (reads : List ReadEvent) (startD endD : Int) : Finset Int :=
  ((reads.map fun r => r.read_date).toFinset).filter fun d =>
    startD ≤ d ∧ d ≤ endD ∧ isSunday d = false

/-- The distinct read dates of one user restricted to the query range
(the `daily_reads` CTE / the range condition on the `reading_stats` join). -/
def userReadDatesInRange (reads : List ReadEvent) (email : String)
    (startD endD : Int) : Finset Int :=
  (((reads.filter fun r => r.user == email).map fun r => r.read_date).toFinset).filter
    fun d => startD ≤ d ∧ d ≤ endD

/-- `total_reads` of a `user_reads` row in `getTopReaders`: distinct read
dates of the user that are at least `created_at` and fall on a newsletter
day. -/
def trTotalReads (readDates nd : Finset Int) (created : Int) : Nat :=
  (readDates.filter fun d => created ≤ d ∧ d ∈ nd).card

/-- `total_possible_newsletters` of a `user_reads` row in `getTopReaders`:
newsletter days at least `created_at`. -/
def trPossible (nd : Finset Int) (created : Int) : Nat :=
  (nd.filter fun d => created ≤ d).card

/-- One output row of `getTopReaders` (with `total_reads` carried along for
the `WHERE total_reads > 0` filter). -/
structure TopReaderRow where
  email : String
  streak : Nat
  last_read : Option Int
  opening_rate : ℚ
  total_reads : Nat
deriving Repr, DecidableEq

/-- The comparison of `ORDER BY opening_rate DESC, streak DESC` as a total
preorder: `a` may come before `b`. -/
def topReaderOrder (a b : TopReaderRow) : Prop :=
  b.opening_rate < a.opening_rate ∨
    (a.opening_rate = b.opening_rate ∧ b.streak ≤ a.streak)

instance : DecidableRel topReaderOrder := by
  unfold topReaderOrder; infer_instance

/-- `ORDER BY opening_rate DESC, streak DESC LIMIT 10` over the computed
rows, modelled as a stable sort followed by taking ten rows. -/
def topReadersSelect (rows : List TopReaderRow) : List TopReaderRow :=
  (rows.insertionSort topReaderOrder).take 10

/-- `DatabaseService.getTopReaders` (without the optional `newsletterDate` /
`minStreak` filters): per non-admin user, the streak over the range window,
the opening rate against the population-wide newsletter days, the
`total_reads > 0` restriction, then ordering and the ten-row limit. -/
def getTopReadersModel (st : DBState) (startD endD today : Int) : List TopReaderRow :=
  let nd := newsletterDays st.reads startD endD
  let win := (datesFrom startD endD).filter fun d => d ≤ today
  let rows := (st.users.filter fun u => u.email ≠ adminEmail).map fun u =>
    let rd := userReadDatesInRange st.reads u.email startD endD
    let tr := trTotalReads rd nd u.created_at
    ({ email := u.email, streak := streakOver win rd today,
       last_read := u.last_read_date,
       opening_rate := topReadersOpeningRate tr (trPossible nd u.created_at),
       total_reads := tr } : TopReaderRow)
  topReadersSelect (rows.filter fun r => 0 < r.total_reads)

/-! ## Helper lemmas -/

theorem applyStreakUpdate_email (e : String) (s : Nat) (t : Int) (u : UserRec) :
    (applyStreakUpdate e s t u).email = u.email := by
  unfold applyStreakUpdate; split <;> rfl

theorem applyStreakUpdate_highest_mono (e : String) (s : Nat) (t : Int) (u : UserRec) :
    u.highest_streak ≤ (applyStreakUpdate e s t u).highest_streak := by
  unfold applyStreakUpdate; split
  · exact le_max_left _ _
  · exact le_rfl

theorem applyStreakUpdate_inv (e : String) (s : Nat) (t : Int) (u : UserRec)
    (h : u.current_streak ≤ u.highest_streak) :
    (applyStreakUpdate e s t u).current_streak ≤ (applyStreakUpdate e s t u).highest_streak := by
  unfold applyStreakUpdate; split
  · exact le_max_right _ _
  · exact h

theorem getOrCreateUser_any (st : DBState) (e : String) :
    ((getOrCreateUser st e).users.any fun u => u.email == e) = true := by
  unfold getOrCreateUser
  cases h : (st.users.any fun u => u.email == e) <;> simp [h, List.any_append]

theorem getOrCreateUser_eq_of_any (st : DBState) (e : String)
    (h : (st.users.any fun u => u.email == e) = true) : getOrCreateUser st e = st := by
  simp [getOrCreateUser, h]

theorem getOrCreateUser_reads (st : DBState) (e : String) :
    (getOrCreateUser st e).reads = st.reads := by
  unfold getOrCreateUser; split <;> rfl

theorem updated_users_any (l : List UserRec) (e : String) (s : Nat) (t : Int) :
    ((l.map (applyStreakUpdate e s t)).any fun u => u.email == e)
      = (l.any fun u => u.email == e) := by
  rw [List.any_map]
  apply congrArg
  funext u
  simp [Function.comp, applyStreakUpdate_email]

/-! ## C3: Sunday rejection -/

/-- C3.  When `today` (in UTC-3) is a Sunday, `recordRead` throws a
`ValidationError` and leaves the database state — read events and user
streak state — untouched. -/
theorem recordRead_sunday_rejected (st : DBState) (data : WebhookData) (today : Int)
    (h : isSunday today = true) :
    (∃ msg, (recordRead st data today).1 = .validationError msg) ∧
      (recordRead st data today).2 = st := by
  unfold recordRead
  cases hv : isValidEmail data.email <;> simp [hv, h]

/-- Witness for C3 at a concrete Sunday (`0 % 7 = 0`). -/
theorem recordRead_sunday_rejected_witness :
    isSunday 0 = true ∧
      ((∃ msg, (recordRead ⟨[], []⟩ { email := "a@b.co", post_id := "p" } 0).1
          = .validationError msg) ∧
        (recordRead ⟨[], []⟩ { email := "a@b.co", post_id := "p" } 0).2 = ⟨[], []⟩) :=
  ⟨by decide, recordRead_sunday_rejected ⟨[], []⟩ { email := "a@b.co", post_id := "p" } 0 (by decide)⟩

/-! ## C2: idempotence of read recording -/

/-- After a normal return of `recordRead`, the e-mail was valid, the day was
not a Sunday, the user row exists, and a read event for the pair exists. -/
theorem recordRead_ok_facts (st st' : DBState) (data : WebhookData) (today : Int)
    (h : recordRead st data today = (.ok, st')) :
    isValidEmail data.email = true ∧ isSunday today = false ∧
      (st'.users.any fun u => u.email == data.email) = true ∧
      hasReadPost st' data.email data.post_id = true := by
  unfold recordRead at h
  cases hv : isValidEmail data.email
  · simp [hv] at h
  · cases hs : isSunday today
    · simp only [hv, hs, Bool.not_true, Bool.true_eq_false, Bool.false_eq_true, if_false] at h
      cases hr : hasReadPost (getOrCreateUser st data.email) data.email data.post_id
      · simp only [hr, Bool.false_eq_true, if_false, Prod.mk.injEq, true_and] at h
        subst h
        refine ⟨rfl, rfl, ?_, ?_⟩
        · rw [updated_users_any]
          exact getOrCreateUser_any st data.email
        · simp [hasReadPost, List.any_append]
      · simp only [hr, if_true, Prod.mk.injEq, true_and] at h
        subst h
        exact ⟨rfl, rfl, getOrCreateUser_any st data.email, hr⟩
    · simp [hv, hs] at h

/-- Replay: when the user row and the (user, post) read event already
exist, `recordRead` (with valid e-mail, not on a Sunday) is a no-op. -/
theorem recordRead_noop (st : DBState) (data : WebhookData) (today : Int)
    (hv : isValidEmail data.email = true) (hs : isSunday today = false)
    (hany : (st.users.any fun u => u.email == data.email) = true)
    (hread : hasReadPost st data.email data.post_id = true) :
    recordRead st data today = (.ok, st) := by
  unfold recordRead
  rw [getOrCreateUser_eq_of_any _ _ hany]
  simp [hv, hs, hread]

theorem recordRead_idempotent (st st' : DBState) (data : WebhookData) (today : Int)
    (h : recordRead st data today = (.ok, st')) :
    recordRead st' data today = (.ok, st') := by
  obtain ⟨hv, hs, hany, hread⟩ := recordRead_ok_facts st st' data today h
  exact recordRead_noop st' data today hv hs hany hread

/-- Witness for C2: a fresh user reads post `p` on day `1`; replaying the
call changes nothing. -/
theorem recordRead_idempotent_witness :
    recordRead ⟨[], []⟩ { email := "a@b.co", post_id := "p" } 1
        = (.ok, (recordRead ⟨[], []⟩ { email := "a@b.co", post_id := "p" } 1).2) ∧
      recordRead (recordRead ⟨[], []⟩ { email := "a@b.co", post_id := "p" } 1).2
          { email := "a@b.co", post_id := "p" } 1
        = (.ok, (recordRead ⟨[], []⟩ { email := "a@b.co", post_id := "p" } 1).2) :=
  ⟨by decide,
   recordRead_idempotent ⟨[], []⟩ _ { email := "a@b.co", post_id := "p" } 1 (by decide)⟩

/-! ## C4: highest-streak invariant -/

theorem findUser_getOrCreateUser (st : DBState) (e1 e : String) (u : UserRec)
    (h : findUser st e = some u) : findUser (getOrCreateUser st e1) e = some u := by
  unfold findUser at h
  unfold getOrCreateUser findUser
  split
  · exact h
  · simp [List.find?_append, h]

theorem findUser_update (l : List UserRec) (e1 : String) (s : Nat) (t : Int) (e : String) :
    (l.map (applyStreakUpdate e1 s t)).find? (fun u => u.email == e)
      = (l.find? (fun u => u.email == e)).map (applyStreakUpdate e1 s t) := by
  rw [List.find?_map]
  have hp : ((fun u : UserRec => u.email == e) ∘ applyStreakUpdate e1 s t)
      = fun u : UserRec => u.email == e := by
    funext u
    simp [Function.comp_apply, applyStreakUpdate_email]
  rw [hp]

theorem getOrCreateUser_inv (st : DBState) (e : String)
    (hinv : ∀ u ∈ st.users, u.current_streak ≤ u.highest_streak) :
    ∀ u ∈ (getOrCreateUser st e).users, u.current_streak ≤ u.highest_streak := by
  unfold getOrCreateUser
  split
  · exact hinv
  · intro u hu
    simp only [List.mem_append, List.mem_singleton] at hu
    rcases hu with hu | rfl
    · exact hinv u hu
    · exact le_rfl

/-- The three possible post-states of a `recordRead` call: unchanged (a
validation error), the upsert alone (duplicate read), or the upsert plus the
inserted event and the streak update. -/
theorem recordRead_state_cases (st : DBState) (data : WebhookData) (today : Int) :
    (recordRead st data today).2 = st ∨
    (recordRead st data today).2 = getOrCreateUser st data.email ∨
    ∃ s, (recordRead st data today).2 =
      { users := (getOrCreateUser st data.email).users.map (applyStreakUpdate data.email s today),
        reads := (getOrCreateUser st data.email).reads ++
          [{ user := data.email, post_id := data.post_id, read_date := today,
             utm_source := data.utm_source, utm_medium := data.utm_medium,
             utm_campaign := data.utm_campaign, utm_channel := data.utm_channel }] } := by
  unfold recordRead
  dsimp only []
  split
  · left; rfl
  · split
    · left; rfl
    · split
      · right; left; rfl
      · right; right; exact ⟨_, rfl⟩

/-- C4.  After any `recordRead` call: every stored user row satisfies
`current_streak ≤ highest_streak` (given it held before), the stored
`highest_streak` of any user never decreases across the call, and the
`highest_streak` reported by `getUserStats` is at least the reported
current streak. -/
theorem highestStreak_invariant (st : DBState) (data : WebhookData) (today : Int)
    (hinv : ∀ u ∈ st.users, u.current_streak ≤ u.highest_streak) :
    (∀ u' ∈ (recordRead st data today).2.users, u'.current_streak ≤ u'.highest_streak) ∧
      (∀ e u u', findUser st e = some u →
        findUser (recordRead st data today).2 e = some u' →
        u.highest_streak ≤ u'.highest_streak) ∧
      (∀ s c, c ≤ reportedHighest s c) := by
  have hc := recordRead_state_cases st data today
  refine ⟨?_, ?_, fun s c => ?_⟩
  · rcases hc with h | h | ⟨s, h⟩ <;> rw [h]
    · exact hinv
    · exact getOrCreateUser_inv st data.email hinv
    · intro u' hu'
      simp only [List.mem_map] at hu'
      obtain ⟨w, hw, rfl⟩ := hu'
      exact applyStreakUpdate_inv _ _ _ _ (getOrCreateUser_inv st data.email hinv w hw)
  · intro e u u' h1 h2
    rcases hc with h | h | ⟨s, h⟩ <;> rw [h] at h2
    · rw [h1] at h2
      injection h2 with h2
      exact h2 ▸ le_rfl
    · rw [findUser_getOrCreateUser st data.email e u h1] at h2
      injection h2 with h2
      exact h2 ▸ le_rfl
    · have h3 := findUser_getOrCreateUser st data.email e u h1
      unfold findUser at h2 h3
      simp only at h2
      rw [findUser_update, h3, Option.map_some'] at h2
      injection h2 with h2
      rw [← h2]
      exact applyStreakUpdate_highest_mono data.email s today u
  · unfold reportedHighest
    split <;> omega

/-- Witness for C4: the empty database trivially satisfies the invariant,
and the conclusion holds for a concrete first read. -/
theorem highestStreak_invariant_witness :
    (∀ u ∈ (⟨[], []⟩ : DBState).users, u.current_streak ≤ u.highest_streak) ∧
      ((∀ u' ∈ (recordRead ⟨[], []⟩ { email := "a@b.co", post_id := "p" } 1).2.users,
          u'.current_streak ≤ u'.highest_streak) ∧
        (∀ e u u', findUser ⟨[], []⟩ e = some u →
          findUser (recordRead ⟨[], []⟩ { email := "a@b.co", post_id := "p" } 1).2 e = some u' →
          u.highest_streak ≤ u'.highest_streak) ∧
        (∀ s c, c ≤ reportedHighest s c)) :=
  ⟨by simp, highestStreak_invariant ⟨[], []⟩ { email := "a@b.co", post_id := "p" } 1 (by simp)⟩

/-! ## C9: the implicit 90-day streak window of `getUserStats` -/

theorem streakWindow_card (today : Int) : (streakWindow today).card = 92 := by
  rw [streakWindow, Int.card_Icc]
  omega

/-- C9.  The `current_streak` computed by `getUserStats` only scans the
window of the last 92 calendar days (`today - 91 … today`, the rows of the
recursive date CTE that stops 90 days before today): it is bounded by the
size of that window, and its value only depends on the read history inside
the window — two histories agreeing there yield the same streak, however
long an unbroken run extends further into the past. -/
theorem sqlCurrentStreak_window (reads reads2 : Finset Int) (today : Int)
    (h : ∀ d ∈ streakWindow today, (d ∈ reads ↔ d ∈ reads2)) :
    sqlCurrentStreak reads today ≤ 92 ∧
      sqlCurrentStreak reads today = sqlCurrentStreak reads2 today := by
  constructor
  · calc sqlCurrentStreak reads today ≤ (streakWindow today).card :=
          Finset.card_filter_le _ _
      _ = 92 := streakWindow_card today
  · have hsel : ∀ d ∈ streakWindow today,
        (sqlSelected (streakWindow today) reads d ↔ sqlSelected (streakWindow today) reads2 d) := by
      intro d hd
      unfold sqlSelected
      constructor
      · rintro (hr | ⟨hsun, d2, hd2, hlt, hr2⟩)
        · exact Or.inl ((h d hd).1 hr)
        · exact Or.inr ⟨hsun, d2, hd2, hlt, (h d2 hd2).1 hr2⟩
      · rintro (hr | ⟨hsun, d2, hd2, hlt, hr2⟩)
        · exact Or.inl ((h d hd).2 hr)
        · exact Or.inr ⟨hsun, d2, hd2, hlt, (h d2 hd2).2 hr2⟩
    have hgap : ∀ d, sqlGaps (streakWindow today) reads today d
        = sqlGaps (streakWindow today) reads2 today d := by
      intro d
      unfold sqlGaps
      congr 1
      apply Finset.filter_congr
      intro d2 hd2
      have := h d2 hd2
      tauto
    unfold sqlCurrentStreak streakOver
    congr 1
    apply Finset.filter_congr
    intro d hd
    rw [hgap d]
    exact and_congr (hsel d hd) Iff.rfl

/-- Witness for C9: a read far outside the window (`-500`) does not change
the streak computed for `today = 100`. -/
theorem sqlCurrentStreak_window_witness :
    (∀ d ∈ streakWindow 100, (d ∈ ({50} : Finset Int) ↔ d ∈ ({50, -500} : Finset Int))) ∧
      (sqlCurrentStreak {50} 100 ≤ 92 ∧
        sqlCurrentStreak {50} 100 = sqlCurrentStreak {50, -500} 100) :=
  ⟨by decide, sqlCurrentStreak_window {50} {50, -500} 100 (by decide)⟩

/-! ## C1: Sunday transparency of the streak -/

/-- A user who read one post on each of Monday–Friday of week 1
(days 701–705; day 700 is a Sunday, so 701 is a Monday and 708 the Monday
of week 2), heading into the weekend with a streak of 5. -/
def c1State : DBState :=
  { users := [{ email := "u@x.com", current_streak := 5, highest_streak := 5 }],
    reads := [{ user := "u@x.com", post_id := "p1", read_date := 701 },
              { user := "u@x.com", post_id := "p2", read_date := 702 },
              { user := "u@x.com", post_id := "p3", read_date := 703 },
              { user := "u@x.com", post_id := "p4", read_date := 704 },
              { user := "u@x.com", post_id := "p5", read_date := 705 }] }

/-- The distinct read dates after the week-2 Monday read is recorded. -/
def c1Dates : Finset Int := {701, 702, 703, 704, 705, 708}

set_option maxRecDepth 4000 in
/-- Counterexample to C1.  For the Mon–Fri week-1 plus Mon week-2 history,
neither the streak stored by `recordRead` when the Monday read arrives nor
the streak reported by `getUserStats` as of that Monday equals 6. -/
theorem c1_sunday_transparency_counterexample :
    (findUser (recordRead c1State { email := "u@x.com", post_id := "p6" } 708).2 "u@x.com").map
        UserRec.current_streak ≠ some 6 ∧
      sqlCurrentStreak c1Dates 708 ≠ 6 := by
  decide

set_option maxRecDepth 4000 in
/-- C1 amended.  On that history the week-2 Monday read is accepted, but
the skipped Saturday (an eligible, read-free day) breaks the streak:
`recordRead` stores a current streak of 1 (its loop stops at the three-day
Friday-to-Monday gap), and the `getUserStats` query reports 2 (the Monday
read plus the transparent Sunday before it). -/
theorem c1_sunday_transparency_amended :
    (recordRead c1State { email := "u@x.com", post_id := "p6" } 708).1 = .ok ∧
      (findUser (recordRead c1State { email := "u@x.com", post_id := "p6" } 708).2 "u@x.com").map
        UserRec.current_streak = some 1 ∧
      sqlCurrentStreak c1Dates 708 = 2 := by
  decide

/-! ## C5: opening-rate worked example -/

/-- C5.  A user created on day 704 (the anchor; 704 % 7 = 4, so none of
days 704–706 is a Sunday) with one read event on each of days 705 and 706
has, as of day 706, exactly the three eligible days 704–706, and
`getUserStats` computes an opening rate of exactly 66.67. -/
theorem opening_rate_worked_example :
    possibleNewsletters 704 706 = 3 ∧
      getUserStatsOpeningRate
        [{ user := "u@x.com", post_id := "a", read_date := 705 },
         { user := "u@x.com", post_id := "b", read_date := 706 }] "u@x.com" 704 706
      = 6667 / 100 := by
  constructor
  · decide
  · have h1 : getUserStatsOpeningRate
        [{ user := "u@x.com", post_id := "a", read_date := 705 },
         { user := "u@x.com", post_id := "b", read_date := 706 }] "u@x.com" 704 706
        = userStatsOpeningRate 2 3 := by
      unfold getUserStatsOpeningRate
      congr 1
    rw [h1, userStatsOpeningRate, if_pos (by norm_num : (0:ℕ) < 3), roundTo2, round_eq]
    norm_num

/-! ## C6: vacuous opening rate -/

/-- Counterexample to C6.  With an empty eligible-day set the per-user
computation (`getUserStats`) yields 100 while the aggregate computation
(`getTopReaders` / `getAdminStats`) yields 0 — the policy is not applied
identically. -/
theorem vacuous_opening_rate_counterexample :
    userStatsOpeningRate 0 0 = 100 ∧ topReadersOpeningRate 0 0 = 0 ∧ (100 : ℚ) ≠ 0 := by
  refine ⟨?_, ?_, by norm_num⟩
  · simp [userStatsOpeningRate]
  · simp [topReadersOpeningRate]

/-- C6 amended.  With zero eligible days, `getUserStats` reports an opening
rate of 100 (vacuously caught up), but the aggregate queries
(`getTopReaders`, `getAdminStats`) report 0 for the same situation. -/
theorem vacuous_opening_rate_amended (n : Nat) :
    userStatsOpeningRate n 0 = 100 ∧ topReadersOpeningRate n 0 = 0 := by
  constructor
  · simp [userStatsOpeningRate]
  · simp [topReadersOpeningRate]

/-! ## C7: opening-rate bound -/

theorem round_mono_rat {x y : ℚ} (h : x ≤ y) : round x ≤ round y := by
  rw [round_eq, round_eq]
  exact Int.floor_mono (by linarith)

theorem roundTo2_nonneg {q : ℚ} (h : 0 ≤ q) : 0 ≤ roundTo2 q := by
  unfold roundTo2
  have h2 : (0:ℤ) ≤ round (q * 100) := by
    have h3 := round_mono_rat (by linarith : (0:ℚ) ≤ q * 100)
    simpa using h3
  have h4 : (0:ℚ) ≤ (round (q * 100) : ℚ) := by exact_mod_cast h2
  linarith

theorem roundTo2_le_100 {q : ℚ} (h : q ≤ 100) : roundTo2 q ≤ 100 := by
  unfold roundTo2
  have h2 : round (q * 100) ≤ round ((10000 : ℚ)) := round_mono_rat (by linarith)
  have h3 : round ((10000 : ℚ)) = 10000 := by
    rw [round_eq]
    norm_num
  rw [h3] at h2
  have h4 : ((round (q * 100) : ℤ) : ℚ) ≤ 10000 := by exact_mod_cast h2
  linarith

theorem roundTo2_ge_100 {q : ℚ} (h : 100 ≤ q) : 100 ≤ roundTo2 q := by
  unfold roundTo2
  have h2 : round ((10000 : ℚ)) ≤ round (q * 100) := round_mono_rat (by linarith)
  have h3 : round ((10000 : ℚ)) = 10000 := by
    rw [round_eq]
    norm_num
  rw [h3] at h2
  have h4 : (10000 : ℚ) ≤ ((round (q * 100) : ℤ) : ℚ) := by exact_mod_cast h2
  linarith

/-- In `getTopReaders`, a user's counted reads are distinct dates drawn
from the newsletter days at or after the user's creation, so the numerator
never exceeds the denominator. -/
theorem trTotalReads_le_trPossible (rd nd : Finset Int) (c : Int) :
    trTotalReads rd nd c ≤ trPossible nd c := by
  unfold trTotalReads trPossible
  apply Finset.card_le_card
  intro d hd
  simp only [Finset.mem_filter] at hd ⊢
  exact ⟨hd.2.2, hd.2.1⟩

/-- C7.  The opening rate of `getUserStats` lies in `[0, 100]` for every
reads/eligible-days pair, and is clamped to exactly 100 whenever the raw
ratio exceeds 1; the opening rate computed by `getTopReaders` from any
read-date set, newsletter-day set and creation date also lies in
`[0, 100]` (its numerator is structurally at most its denominator). -/
theorem opening_rate_bounds (r p : Nat) (rd nd : Finset Int) (c : Int) :
    (0 ≤ userStatsOpeningRate r p ∧ userStatsOpeningRate r p ≤ 100) ∧
      (0 < p → p < r → userStatsOpeningRate r p = 100) ∧
      (0 ≤ topReadersOpeningRate (trTotalReads rd nd c) (trPossible nd c) ∧
        topReadersOpeningRate (trTotalReads rd nd c) (trPossible nd c) ≤ 100) := by
  refine ⟨?_, ?_, ?_⟩
  · unfold userStatsOpeningRate
    split
    · rename_i hp
      have hx : (0:ℚ) ≤ (r : ℚ) / (p : ℚ) * 100 := by positivity
      constructor
      · exact le_min (roundTo2_nonneg hx) (by norm_num)
      · exact min_le_right _ _
    · norm_num
  · intro hp hrp
    unfold userStatsOpeningRate
    rw [if_pos hp]
    have hp2 : (0:ℚ) < (p : ℚ) := by exact_mod_cast hp
    have hrp2 : (p : ℚ) < (r : ℚ) := by exact_mod_cast hrp
    have hx : (100:ℚ) ≤ (r : ℚ) / (p : ℚ) * 100 := by
      have h1 : (1:ℚ) ≤ (r : ℚ) / (p : ℚ) := by
        rw [le_div_iff₀ hp2]
        linarith
      linarith
    exact min_eq_right (roundTo2_ge_100 hx)
  · have hnm := trTotalReads_le_trPossible rd nd c
    unfold topReadersOpeningRate
    split
    · rename_i hm
      have hm2 : (0:ℚ) < (trPossible nd c : ℚ) := by exact_mod_cast hm
      have hx : (0:ℚ) ≤ (trTotalReads rd nd c : ℚ) / (trPossible nd c : ℚ) * 100 := by
        positivity
      have hx2 : (trTotalReads rd nd c : ℚ) / (trPossible nd c : ℚ) * 100 ≤ 100 := by
        have h1 : (trTotalReads rd nd c : ℚ) / (trPossible nd c : ℚ) ≤ 1 := by
          rw [div_le_one hm2]
          exact_mod_cast hnm
        linarith
      exact ⟨roundTo2_nonneg hx, roundTo2_le_100 hx2⟩
    · norm_num

/-- Witness for C7: the clamp fires at 5 reads over 3 eligible days. -/
theorem opening_rate_bounds_witness :
    (0 < 3) ∧ (3 < 5) ∧ userStatsOpeningRate 5 3 = 100 :=
  ⟨by norm_num, by norm_num,
   (opening_rate_bounds 5 3 ∅ ∅ 0).2.1 (by norm_num) (by norm_num)⟩

/-! ## C8: top-readers ordering and limit -/

instance : IsTrans TopReaderRow topReaderOrder := by
  constructor
  intro a b c hab hbc
  unfold topReaderOrder at hab hbc ⊢
  rcases hab with h1 | ⟨h1, h2⟩ <;> rcases hbc with h3 | ⟨h3, h4⟩
  · exact Or.inl (lt_trans h3 h1)
  · exact Or.inl (h3 ▸ h1)
  · exact Or.inl (by rw [h1]; exact h3)
  · exact Or.inr ⟨h1.trans h3, h4.trans h2⟩

instance : IsTotal TopReaderRow topReaderOrder := by
  constructor
  intro a b
  unfold topReaderOrder
  rcases lt_trichotomy a.opening_rate b.opening_rate with h | h | h
  · exact Or.inr (Or.inl h)
  · rcases le_total a.streak b.streak with h2 | h2
    · exact Or.inr (Or.inr ⟨h.symm, h2⟩)
    · exact Or.inl (Or.inr ⟨h, h2⟩)
  · exact Or.inl (Or.inl h)

/-- C8.  The top-readers selection always returns at most ten rows, sorted
by opening rate descending with streak descending as tie-break; on the
spec's example — A(90, 5), B(90, 10), C(95, 1) — it returns [C, B, A]. -/
theorem top_readers_order_limit :
    (∀ rows : List TopReaderRow, (topReadersSelect rows).length ≤ 10 ∧
        (topReadersSelect rows).Sorted topReaderOrder) ∧
      topReadersSelect
          [{ email := "A", streak := 5, last_read := none, opening_rate := 90, total_reads := 1 },
           { email := "B", streak := 10, last_read := none, opening_rate := 90, total_reads := 1 },
           { email := "C", streak := 1, last_read := none, opening_rate := 95, total_reads := 1 }]
        = [{ email := "C", streak := 1, last_read := none, opening_rate := 95, total_reads := 1 },
           { email := "B", streak := 10, last_read := none, opening_rate := 90, total_reads := 1 },
           { email := "A", streak := 5, last_read := none, opening_rate := 90, total_reads := 1 }] := by
  constructor
  · intro rows
    constructor
    · exact List.length_take_le _ _
    · exact List.Pairwise.sublist (List.take_sublist _ _)
        (List.sorted_insertionSort topReaderOrder rows)
  · decide

/-! ## C10: admin-account exclusion from the aggregates -/

/-- A database state with the admin account and all of its reads removed. -/
def removeAdmin (st : DBState) : DBState :=
  { users := st.users.filter (fun u => u.email ≠ adminEmail),
    reads := st.reads.filter (fun r => r.user ≠ adminEmail) }

/-- Alice and the admin, both created on day 1; Alice reads on day 2 and
the admin on day 3 (days 1–5 contain no Sunday). -/
def c10State : DBState :=
  { users := [{ email := "alice@x.com", current_streak := 0, highest_streak := 0,
                created_at := 1 },
              { email := "admin@example.com", current_streak := 0, highest_streak := 0,
                created_at := 1 }],
    reads := [{ user := "alice@x.com", post_id := "p1", read_date := 2 },
              { user := "admin@example.com", post_id := "p2", read_date := 3 }] }

theorem c10_eval_full : getTopReadersModel c10State 1 5 5
    = [{ email := "alice@x.com", streak := 0, last_read := none,
         opening_rate := topReadersOpeningRate 1 2, total_reads := 1 }] := rfl

theorem c10_eval_removed : getTopReadersModel (removeAdmin c10State) 1 5 5
    = [{ email := "alice@x.com", streak := 0, last_read := none,
         opening_rate := topReadersOpeningRate 1 1, total_reads := 1 }] := rfl

theorem c10_rate_full : topReadersOpeningRate 1 2 = 50 := by
  rw [topReadersOpeningRate, if_pos (by norm_num : (0:ℕ) < 2), roundTo2, round_eq]
  norm_num

theorem c10_rate_removed : topReadersOpeningRate 1 1 = 100 := by
  rw [topReadersOpeningRate, if_pos (by norm_num : (0:ℕ) < 1), roundTo2, round_eq]
  norm_num

/-- Counterexample to C10.  Removing the admin account together with its
reads changes the top-readers output: the admin's read on day 3 makes day 3
a population-wide newsletter day, so with the admin present Alice's rate is
1/2 = 50, and with the admin (and its reads) removed it is 1/1 = 100. -/
theorem admin_exclusion_counterexample :
    getTopReadersModel c10State 1 5 5 ≠ getTopReadersModel (removeAdmin c10State) 1 5 5 := by
  rw [c10_eval_full, c10_eval_removed, c10_rate_full, c10_rate_removed]
  decide

/-- C10 amended.  The aggregate filters the admin's *user row* out: the
admin never appears among the top readers, and dropping the admin's row
from the users table does not change the output.  (Removing the admin's
*read events* can change it, because they feed the shared newsletter-day
calendar.) -/
theorem admin_exclusion_amended (st : DBState) (startD endD today : Int) :
    (∀ r ∈ getTopReadersModel st startD endD today, r.email ≠ adminEmail) ∧
      getTopReadersModel st startD endD today
        = getTopReadersModel
            { users := st.users.filter (fun u => u.email ≠ adminEmail), reads := st.reads }
            startD endD today := by
  constructor
  · intro r hr
    unfold getTopReadersModel topReadersSelect at hr
    have hr2 := List.mem_of_mem_take hr
    rw [(List.perm_insertionSort topReaderOrder _).mem_iff] at hr2
    have hr3 := List.mem_of_mem_filter hr2
    simp only [List.mem_map, List.mem_filter] at hr3
    obtain ⟨u, ⟨hu, hadm⟩, rfl⟩ := hr3
    simpa using hadm
  · unfold getTopReadersModel
    simp [List.filter_filter]

end ApiGamification
